import Mathlib

/-!
Verification development for the claude-sentient orchestration core
(`src/sdk/python/claude_sentient/`).

The Python modules `gates.py`, `orchestrator.py`, `session.py`,
`datatypes.py` and `profiles.py` are shallowly embedded below:

* pure Python functions become Lean functions;
* Python `dict`s become insertion-ordered association lists with unique
  keys (`dictGet?`, `dictSet`, `dictUpdate` mirror `d[k]`, `d[k] = v`
  and `d.update(e)`);
* `float` money amounts become `ℚ` (all amounts appearing in the spec
  scenarios are exactly representable, and the code performs only
  addition, subtraction, `max` and comparisons on them);
* ISO-8601 timestamps from `datetime.now()` become an abstract `Nat`
  clock value threaded into every operation that can stamp a record
  (ISO timestamps from a monotone clock compare lexicographically in
  the same order as the clock);
* the filesystem behind `SessionManager` becomes an `Option SessionState`
  field `disk` (the JSON round trip through `asdict`/`json.dumps` /
  `json.loads`/`SessionState(**data)` is the identity on the record);
* `raise` becomes an explicit error value;
* `subprocess.run` is an external effect, so `run_gate` takes the
  outcome of the child process (`ProcOutcome`) as an argument.
-/

set_option autoImplicit false

namespace Sentient

/-! ### datatypes.py -/

/-- `GateStatus` from `datatypes.py`: quality gate status values. -/
inductive GateStatus where
  | pending
  | passed
  | failed
  | skipped
deriving DecidableEq, Repr

/-- `GateResult` from `datatypes.py`: result of running a quality gate.
`duration_ms` is wall-clock time in milliseconds. -/
structure GateResult where
  name : String
  status : GateStatus
  command : String
  output : String := ""
  error : String := ""
  duration_ms : ℚ := 0
deriving DecidableEq, Repr

/-! ### profiles.py (the part the gate runner consumes) -/

/-- `DEFAULT_GATE_TIMEOUT` from `profiles.py` (seconds). -/
def DEFAULT_GATE_TIMEOUT : Nat := 300

/-- `GateConfig` from `profiles.py`: configuration for a quality gate. -/
structure GateConfig where
  command : String
  blocking : Bool := true
  timeout : Nat := DEFAULT_GATE_TIMEOUT
deriving DecidableEq, Repr

/-! ### Python dict as an insertion-ordered association list -/

/-- `d.get(k)` on a Python dict: the value at the first (unique) matching
key, if any. -/
def dictGet? {α : Type} : List (String × α) → String → Option α
  | [], _ => none
  | (k0, v0) :: t, k => if k0 = k then some v0 else dictGet? t k

/-- `d.get(k, dflt)` on a Python dict. -/
def dictGetD {α : Type} (d : List (String × α)) (k : String) (dflt : α) : α :=
  (dictGet? d k).getD dflt

/-- `d[k] = v` on a Python dict: overwrite in place if the key is present
(keeping its position), otherwise append. -/
def dictSet {α : Type} : List (String × α) → String → α → List (String × α)
  | [], k, v => [(k, v)]
  | (k0, v0) :: t, k, v =>
      if k0 = k then (k, v) :: t else (k0, v0) :: dictSet t k v

/-- `d.update(e)` on Python dicts: fold `d[k] = v` over the entries of
`e` in order. -/
def dictUpdate {α : Type} (d e : List (String × α)) : List (String × α) :=
  e.foldl (fun acc kv => dictSet acc kv.1 kv.2) d

/-- A Python dict invariant: keys are unique. -/
abbrev keysNodup {α : Type} (d : List (String × α)) : Prop :=
  (d.map Prod.fst).Nodup

/-! ### gates.py -/

/-- The profile data consumed by `QualityGates` (`profiles.py`,
`Profile.gates`): a map from gate name to its configuration.  The other
`Profile` fields (detection rules, conventions, model routing, thinking
budget) are not read by any function embedded here. -/
structure Profile where
  name : String
  gates : List (String × GateConfig) := []
deriving DecidableEq, Repr

/-- Outcome of the `subprocess.run` call inside `run_gate`: normal
completion with an exit code and captured streams, `TimeoutExpired`, or
any other launch exception with its message.  `elapsed_ms` is the
wall-clock duration measured around the call. -/
inductive ProcOutcome where
  | completed (returncode : Int) (stdout stderr : String) (elapsed_ms : ℚ)
  | timedOut
  | launchError (msg : String) (elapsed_ms : ℚ)
deriving DecidableEq, Repr

/-- `QualityGates.run_gate` from `gates.py`: run a single quality gate.
If the gate is not configured for the profile the result is `skipped`;
a completed process yields `passed` exactly when the exit code is 0;
`TimeoutExpired` and launch failures yield `failed` with a diagnostic
error string. -/
def run_gate (profile : Profile) (gate_name : String)
    (outcome : ProcOutcome) : GateResult :=
  match dictGet? profile.gates gate_name with
  | none =>
      { name := gate_name
        status := GateStatus.skipped
        command := ""
        output := "Gate not configured for this profile" }
  | some gate_config =>
      match outcome with
      | ProcOutcome.completed rc out err el =>
          { name := gate_name
            status := if rc = 0 then GateStatus.passed else GateStatus.failed
            command := gate_config.command
            output := out
            error := err
            duration_ms := el }
      | ProcOutcome.timedOut =>
          { name := gate_name
            status := GateStatus.failed
            command := gate_config.command
            error := "Timeout after " ++ toString gate_config.timeout ++ " seconds"
            duration_ms := (gate_config.timeout : ℚ) * 1000 }
      | ProcOutcome.launchError msg el =>
          { name := gate_name
            status := GateStatus.failed
            command := gate_config.command
            error := msg
            duration_ms := el }

/-- `QualityGates.all_blocking_passed` from `gates.py`, recursing over
the profile's gate list the way the Python `for` loop does:
return `false` as soon as a blocking gate has no recorded result or a
recorded result whose status is not `passed`. -/
def all_blocking_passed :
    List (String × GateConfig) → List (String × GateResult) → Bool
  | [], _ => true
  | (gate_name, gate_config) :: rest, results =>
      if gate_config.blocking then
        match dictGet? results gate_name with
        | none => false
        | some r =>
            if r.status = GateStatus.passed then
              all_blocking_passed rest results
            else false
      else all_blocking_passed rest results

/-! ### orchestrator.py: phase extraction -/

/-- Substring occurrence on character lists: `needle` occurs contiguously
in `hay` (the semantics of Python's `needle in hay` on strings). -/
def hasSubstring : List Char → List Char → Bool
  | hay, needle =>
    match hay with
    | [] => needle.isEmpty
    | _ :: t => needle.isPrefixOf hay || hasSubstring t needle

/-- Python's `marker in content` for strings. -/
def strContains (hay needle : String) : Bool :=
  hasSubstring hay.data needle.data

/-- The `phase_markers` dict literal of `ClaudeSentient._extract_phase`
(`orchestrator.py`), in its insertion order. -/
def phaseMarkers : List (String × String) :=
  [("[INIT]", "init"),
   ("[UNDERSTAND]", "understand"),
   ("[PLAN]", "plan"),
   ("[EXECUTE]", "execute"),
   ("[VERIFY]", "verify"),
   ("[COMMIT]", "commit"),
   ("[DONE]", "done"),
   ("[EVALUATE]", "evaluate")]

/-- The `for marker, phase in phase_markers.items()` loop of
`_extract_phase`: return the phase of the first marker (in dict
iteration order) that occurs in the content. -/
def extractPhaseAux (content : String) :
    List (String × String) → String → String
  | [], current_phase => current_phase
  | (marker, phase) :: rest, current_phase =>
      if strContains content marker then phase
      else extractPhaseAux content rest current_phase

/-- `ClaudeSentient._extract_phase` from `orchestrator.py`: extract the
phase from message content, falling back to the current phase.  (The
transition-validation branch in the source only computes a warning that
is immediately discarded — it never changes the returned value.) -/
def extract_phase (content current_phase : String) : String :=
  extractPhaseAux content phaseMarkers current_phase

/-- Modelled from the spec: the claim's reading of phase extraction, in
which the marker whose occurrence starts at the earliest position in the
content wins (`the earliest-positioned marker wins when several markers
are present in one chunk`).  This definition is not in the source; it
exists to be compared against `extract_phase`. -/
def positionalAux : List Char → String → String
  | [], current_phase => current_phase
  | c :: t, current_phase =>
      match (phaseMarkers.find?
          (fun p => p.1.data.isPrefixOf (c :: t))).map (fun p => p.2) with
      | some phase => phase
      | none => positionalAux t current_phase

/-- Modelled from the spec: scan the content left to right and return the
phase of the marker that occurs earliest; `current_phase` if none occurs. -/
def extractPhasePositional (content current_phase : String) : String :=
  positionalAux content.data current_phase

/-! ### session.py: session state and the session manager

`dict[str, Any]` payload values (a recorded gate-result dict, a task
dict, a backup snapshot, metadata) are opaque to every operation
embedded here; they are modelled as string-keyed association lists with
string values. -/

/-- The JSON-serializable payload of a `dict[str, Any]` value. -/
abbrev AnyDict := List (String × String)

/-- `SessionState` from `session.py`: persistent session state.
Timestamps (`started_at`, `last_updated`, `forked_at`) are abstract
clock values. -/
structure SessionState where
  session_id : String
  started_at : Nat
  last_updated : Nat
  phase : String := "init"
  iteration : Nat := 1
  profile : String := "general"
  task : String := ""
  cwd : String := ""
  name : Option String := none
  parent_session_id : Option String := none
  forked_at : Option Nat := none
  tasks : List AnyDict := []
  tasks_completed : Nat := 0
  gates : List (String × AnyDict) := []
  commits : List String := []
  file_changes : List String := []
  cost_usd : ℚ := 0
  cost_by_phase : List (String × ℚ) := []
  cost_by_model : List (String × ℚ) := []
  budget_usd : Option ℚ := none
  backups : List AnyDict := []
  metadata : AnyDict := []
deriving DecidableEq, Repr

/-- `SessionManager` from `session.py`: the mutable manager object.
`disk` is the parsed content of `state_dir/session.json` (`none` when
the file is missing or fails to parse); `cached` is `_cached_state` and
`dirty` is `_dirty`. -/
structure SessionManager where
  auto_flush : Bool
  cached : Option SessionState := none
  dirty : Bool := false
  disk : Option SessionState := none
deriving DecidableEq, Repr

/-- A manager as `SessionManager.__init__` leaves it: nothing cached,
not dirty, reading whatever record is on disk. -/
def freshManager (auto_flush : Bool) (disk : Option SessionState) :
    SessionManager :=
  { auto_flush := auto_flush, cached := none, dirty := false, disk := disk }

/-- `SessionManager._write_state`: stamp `last_updated` with the current
clock and write the record.  The Python code mutates the passed state
object in place, and `_cached_state` aliases it, so the cache is updated
to the stamped record as well. -/
def writeState (now : Nat) (m : SessionManager) (state : SessionState) :
    SessionManager :=
  let stamped := { state with last_updated := now }
  { m with cached := some stamped, disk := some stamped }

/-- `SessionManager.flush`: write the cached state to disk if dirty,
then clear the dirty flag. -/
def flush (now : Nat) (m : SessionManager) : SessionManager :=
  if m.dirty then
    match m.cached with
    | some state => { writeState now m state with dirty := false }
    | none => m
  else m

/-- `SessionManager._mark_dirty`: set the dirty flag; under `auto_flush`
immediately flush. -/
def mark_dirty (now : Nat) (m : SessionManager) : SessionManager :=
  let m1 := { m with dirty := true }
  if m1.auto_flush then flush now m1 else m1

/-- `SessionManager.save`: cache the state and mark dirty (which writes
at once under `auto_flush`). -/
def save (now : Nat) (m : SessionManager) (state : SessionState) :
    SessionManager :=
  mark_dirty now { m with cached := some state }

/-- `SessionManager.load`: return the cached state when present,
otherwise read and cache the on-disk record (`none` when the file is
missing or corrupt).  Returns the loaded state together with the manager
after the read (the read may populate the cache). -/
def load (m : SessionManager) : Option SessionState × SessionManager :=
  match m.cached with
  | some state => (some state, m)
  | none =>
      match m.disk with
      | none => (none, m)
      | some data => (some data, { m with cached := some data })

/-- `SessionManager.create`: build the initial state and always write it
immediately to establish the on-disk record.  (`session_id` and `name`
auto-generation draw on the wall clock and `uuid`; the model takes the
resolved values as arguments.) -/
def create (now : Nat) (m : SessionManager) (session_id : String)
    (profile : String) (task : String) (name : String) (cwd : String) :
    SessionManager :=
  let state : SessionState :=
    { session_id := session_id
      started_at := now
      last_updated := now
      phase := "init"
      iteration := 1
      profile := profile
      task := task
      name := some name
      cwd := cwd }
  writeState now { m with cached := some state } state

/-- `SessionManager.update_phase`. -/
def update_phase (now : Nat) (phase : String) (m : SessionManager) :
    SessionManager :=
  let p := load m
  match p.1 with
  | none => p.2
  | some state =>
      mark_dirty now { p.2 with cached := some { state with phase := phase } }

/-- `SessionManager.add_commit` (appends unconditionally). -/
def add_commit (now : Nat) (commit_hash : String) (m : SessionManager) :
    SessionManager :=
  let p := load m
  match p.1 with
  | none => p.2
  | some state =>
      let s2 := { state with commits := state.commits ++ [commit_hash] }
      mark_dirty now { p.2 with cached := some s2 }

/-- `SessionManager.add_file_change` (appends only when the path is not
already recorded; an already-recorded path does not even mark dirty). -/
def add_file_change (now : Nat) (file_path : String) (m : SessionManager) :
    SessionManager :=
  let p := load m
  match p.1 with
  | none => p.2
  | some state =>
      if file_path ∈ state.file_changes then p.2
      else
        let s2 := { state with file_changes := state.file_changes ++ [file_path] }
        mark_dirty now { p.2 with cached := some s2 }

/-- `SessionManager.update_gate`. -/
def update_gate (now : Nat) (gate_name : String) (result : AnyDict)
    (m : SessionManager) : SessionManager :=
  let p := load m
  match p.1 with
  | none => p.2
  | some state =>
      let s2 := { state with gates := dictSet state.gates gate_name result }
      mark_dirty now { p.2 with cached := some s2 }

/-- The pure state change performed by `SessionManager.add_cost`. -/
def addCostState (state : SessionState) (amount_usd : ℚ)
    (phase : Option String) (model : Option String) : SessionState :=
  let s1 := { state with cost_usd := state.cost_usd + amount_usd }
  let s2 :=
    match phase with
    | some ph =>
        { s1 with cost_by_phase :=
            (dictSet s1.cost_by_phase ph (dictGetD s1.cost_by_phase ph 0 + amount_usd)) }
    | none => s1
  match model with
  | some md =>
      { s2 with cost_by_model :=
          (dictSet s2.cost_by_model md (dictGetD s2.cost_by_model md 0 + amount_usd)) }
  | none => s2

/-- `SessionManager.add_cost`: add cost to the session tracking (a no-op
when there is no session). -/
def add_cost (now : Nat) (amount_usd : ℚ) (phase : Option String)
    (model : Option String) (m : SessionManager) : SessionManager :=
  let p := load m
  match p.1 with
  | none => p.2
  | some state =>
      mark_dirty now
        { p.2 with cached := some (addCostState state amount_usd phase model) }

/-- `SessionManager.set_budget`. -/
def set_budget (now : Nat) (budget_usd : ℚ) (m : SessionManager) :
    SessionManager :=
  let p := load m
  match p.1 with
  | none => p.2
  | some state =>
      mark_dirty now
        { p.2 with cached := some { state with budget_usd := some budget_usd } }

/-- `SessionManager.is_over_budget`: strictly greater than the budget;
`false` with no session or no budget. -/
def is_over_budget (m : SessionManager) : Bool :=
  match (load m).1 with
  | none => false
  | some state =>
      match state.budget_usd with
      | none => false
      | some b => decide (b < state.cost_usd)

/-- `SessionManager.get_budget_remaining`: `max(0.0, budget - cost)`;
`none` with no session or no budget. -/
def get_budget_remaining (m : SessionManager) : Option ℚ :=
  match (load m).1 with
  | none => none
  | some state =>
      match state.budget_usd with
      | none => none
      | some b => some (max 0 (b - state.cost_usd))

/-! ### session.py: fork and merge -/

/-- The fork state built inside `SessionManager.fork`: a fresh record
with its own id, linked to the parent via `parent_session_id`, copying
the parent's mutable collections.  (`backups` is not copied: the
`SessionState` constructor call in `fork` does not pass it.) -/
def forkState (state : SessionState) (now : Nat)
    (fork_session_id fork_name : String) : SessionState :=
  { session_id := fork_session_id
    started_at := now
    last_updated := now
    phase := state.phase
    iteration := state.iteration
    profile := state.profile
    task := state.task
    name := some fork_name
    parent_session_id := some state.session_id
    forked_at := some now
    cwd := state.cwd
    tasks := state.tasks
    tasks_completed := state.tasks_completed
    gates := state.gates
    commits := state.commits
    file_changes := state.file_changes
    cost_usd := state.cost_usd
    cost_by_phase := state.cost_by_phase
    cost_by_model := state.cost_by_model
    budget_usd := state.budget_usd
    metadata := state.metadata }

/-- `SessionManager.fork`: raise (`ValueError`) when there is no current
session; otherwise build the fork state and a new manager for it whose
cache and isolated on-disk record both hold the fork state.  The
generated fork name uses a random suffix, taken here as the argument
`suffix`; `fork_session_id` likewise stands for the generated id.
Returns the parent manager after its `load` together with the fork's
manager. -/
def fork (now : Nat) (fork_session_id : String) (fork_name : Option String)
    (suffix : String) (m : SessionManager) :
    Except String (SessionManager × SessionManager) :=
  let p := load m
  match p.1 with
  | none => Except.error "No session to fork"
  | some state =>
      let resolved_name :=
        fork_name.getD ((state.name.getD state.session_id) ++ "-fork-" ++ suffix)
      let fork_state := forkState state now fork_session_id resolved_name
      let fork_manager : SessionManager :=
        { auto_flush := m.auto_flush
          cached := some fork_state
          dirty := false
          disk := some fork_state }
      Except.ok (p.2, fork_manager)

/-- Append every element of `l` that is not already present (the merge
loops of `merge_fork` over `file_changes` and `commits`). -/
def unionAppend (base l : List String) : List String :=
  l.foldl (fun acc x => if x ∈ acc then acc else acc ++ [x]) base

/-- The in-place state mutation performed by `merge_fork` once its
preconditions hold: fork's phase and counters win (`iteration` by
`max`), set-like lists are unioned, map-like fields are overwritten by
the fork's entries, cost totals and breakdowns are replaced. -/
def merge_states (state fork_state : SessionState) : SessionState :=
  { state with
    phase := fork_state.phase
    iteration := max state.iteration fork_state.iteration
    tasks_completed := fork_state.tasks_completed
    file_changes := unionAppend state.file_changes fork_state.file_changes
    commits := unionAppend state.commits fork_state.commits
    gates := dictUpdate state.gates fork_state.gates
    cost_usd := fork_state.cost_usd
    cost_by_phase := fork_state.cost_by_phase
    cost_by_model := fork_state.cost_by_model }

/-- `SessionManager.merge_fork`: load both sessions; raise when either
is missing or when the fork's `parent_session_id` is not this session's
id (in the raising cases the parent state is untouched — only `load`'s
caching has happened); otherwise apply `merge_states` to the cached
parent and mark dirty.  The first component is the parent manager after
the call, the second the outcome. -/
def merge_fork (now : Nat) (m fork_manager : SessionManager) :
    SessionManager × Except String Unit :=
  let p := load m
  let q := load fork_manager
  match p.1, q.1 with
  | none, _ => (p.2, Except.error "Cannot merge: missing session state")
  | some _, none => (p.2, Except.error "Cannot merge: missing session state")
  | some state, some fork_state =>
      if fork_state.parent_session_id = some state.session_id then
        (mark_dirty now
          { p.2 with cached := some (merge_states state fork_state) },
         Except.ok ())
      else
        (p.2, Except.error "Cannot merge: fork is not a child of this session")

/-! ### Mutator sequences (for the dirty-batching property) -/

/-- One call to a `SessionManager` mutator. -/
inductive Mutation where
  | updatePhase (phase : String)
  | addCommit (commit_hash : String)
  | addFileChange (file_path : String)
  | updateGate (gate_name : String) (result : AnyDict)
  | addCost (amount_usd : ℚ) (phase : Option String) (model : Option String)
deriving DecidableEq, Repr

/-- Run one mutator call on the manager. -/
def runMutation (now : Nat) (m : SessionManager) : Mutation → SessionManager
  | Mutation.updatePhase ph => update_phase now ph m
  | Mutation.addCommit c => add_commit now c m
  | Mutation.addFileChange f => add_file_change now f m
  | Mutation.updateGate g r => update_gate now g r m
  | Mutation.addCost a p md => add_cost now a p md m

/-- Run a sequence of mutator calls left to right. -/
def runMutations (now : Nat) (m : SessionManager) (ms : List Mutation) :
    SessionManager :=
  ms.foldl (runMutation now) m

/-- The pure effect of one mutator call on the session state. -/
def applyMutation (state : SessionState) : Mutation → SessionState
  | Mutation.updatePhase ph => { state with phase := ph }
  | Mutation.addCommit c => { state with commits := state.commits ++ [c] }
  | Mutation.addFileChange f =>
      if f ∈ state.file_changes then state
      else { state with file_changes := state.file_changes ++ [f] }
  | Mutation.updateGate g r => { state with gates := dictSet state.gates g r }
  | Mutation.addCost a p md => addCostState state a p md

/-- Whether a mutator call marks the state dirty: every mutator does,
except `add_file_change` on an already-recorded path (its guard skips
both the append and `_mark_dirty`). -/
def mutationChanges (state : SessionState) : Mutation → Bool
  | Mutation.addFileChange f => decide (f ∉ state.file_changes)
  | _ => true

/-- The python profile from `ProfileLoader.DEFAULT_PROFILES`
(`profiles.py`), restricted to the fields the gate runner reads; the
gate timeouts take `DEFAULT_GATE_TIMEOUT`. -/
def pythonProfile : Profile :=
  { name := "python"
    gates :=
      [("lint", { command := "ruff check ." , blocking := true }),
       ("test", { command := "pytest", blocking := true }),
       ("type", { command := "pyright", blocking := false })] }

/-- A concrete parent session used to exercise the fork/merge
operations: file-changes `{a,b}`, iteration 2, one recorded lint
result. -/
def parentExample : SessionState :=
  { session_id := "s1", started_at := 0, last_updated := 0,
    iteration := 2, file_changes := ["a", "b"],
    gates := [("lint", [("status", "failed")])] }

/-- A concrete fork of `parentExample`: adds file-change `c`, reached
iteration 5, overwrote the lint result. -/
def forkExample : SessionState :=
  { session_id := "f1", started_at := 1, last_updated := 1,
    iteration := 5, parent_session_id := some "s1",
    file_changes := ["a", "c"],
    gates := [("lint", [("status", "passed")])] }

/-! ## Helper lemmas -/

theorem dictGet?_dictSet_self {α : Type} (d : List (String × α))
    (k : String) (v : α) : dictGet? (dictSet d k v) k = some v := by
  induction d with
  | nil => simp [dictGet?, dictSet]
  | cons kv t ih =>
      obtain ⟨k0, v0⟩ := kv
      by_cases h : k0 = k
      · simp [dictGet?, dictSet, h]
      · simp [dictGet?, dictSet, h, ih]

theorem dictGet?_dictSet_ne {α : Type} (d : List (String × α))
    (k k2 : String) (v : α) (h : k2 ≠ k) :
    dictGet? (dictSet d k v) k2 = dictGet? d k2 := by
  have hne : ¬ k = k2 := fun e => h e.symm
  induction d with
  | nil => simp [dictGet?, dictSet, hne]
  | cons kv t ih =>
      obtain ⟨k0, v0⟩ := kv
      by_cases h0 : k0 = k
      · subst h0
        simp [dictGet?, dictSet, hne]
      · simp only [dictSet, if_neg h0]
        by_cases h2 : k0 = k2
        · simp [dictGet?, h2]
        · simp [dictGet?, h2, ih]

theorem dictGet?_eq_none_of_not_mem_keys {α : Type} (d : List (String × α))
    (k : String) (h : k ∉ d.map Prod.fst) : dictGet? d k = none := by
  induction d with
  | nil => simp [dictGet?]
  | cons kv t ih =>
      obtain ⟨k0, v0⟩ := kv
      simp only [List.map_cons, List.mem_cons] at h
      push_neg at h
      have hne : ¬ k0 = k := fun e => h.1 e.symm
      simp [dictGet?, hne, ih h.2]

theorem mem_keys_of_dictGet?_some {α : Type} (d : List (String × α))
    (k : String) (v : α) (h : dictGet? d k = some v) :
    k ∈ d.map Prod.fst := by
  induction d with
  | nil => simp [dictGet?] at h
  | cons kv t ih =>
      obtain ⟨k0, v0⟩ := kv
      simp only [dictGet?] at h
      by_cases h0 : k0 = k
      · simp [h0]
      · simp only [if_neg h0] at h
        simp [ih h]

theorem dictGet?_dictUpdate_not_mem {α : Type} (e d : List (String × α))
    (k : String) (h : k ∉ e.map Prod.fst) :
    dictGet? (dictUpdate d e) k = dictGet? d k := by
  induction e generalizing d with
  | nil => simp [dictUpdate]
  | cons kv t ih =>
      obtain ⟨k0, v0⟩ := kv
      simp only [List.map_cons, List.mem_cons] at h
      push_neg at h
      show dictGet? (dictUpdate (dictSet d k0 v0) t) k = dictGet? d k
      rw [ih (dictSet d k0 v0) h.2, dictGet?_dictSet_ne d k0 k v0 h.1]

theorem dictGet?_dictUpdate_of_some {α : Type} (e d : List (String × α))
    (k : String) (v : α) (hnd : keysNodup e) (h : dictGet? e k = some v) :
    dictGet? (dictUpdate d e) k = some v := by
  induction e generalizing d with
  | nil => simp [dictGet?] at h
  | cons kv t ih =>
      obtain ⟨k0, v0⟩ := kv
      simp only [keysNodup, List.map_cons, List.nodup_cons] at hnd
      simp only [dictGet?] at h
      show dictGet? (dictUpdate (dictSet d k0 v0) t) k = some v
      by_cases h0 : k0 = k
      · subst h0
        rw [if_pos rfl] at h
        injection h with hv
        subst hv
        rw [dictGet?_dictUpdate_not_mem t (dictSet d k0 v0) k0 hnd.1]
        exact dictGet?_dictSet_self d k0 v0
      · rw [if_neg h0] at h
        exact ih (dictSet d k0 v0) hnd.2 h

theorem mem_unionAppend (l : List String) :
    ∀ (base : List String) (x : String),
      x ∈ unionAppend base l ↔ x ∈ base ∨ x ∈ l := by
  induction l with
  | nil => simp [unionAppend]
  | cons y t ih =>
      intro base x
      show x ∈ unionAppend (if y ∈ base then base else base ++ [y]) t ↔ _
      rw [ih]
      by_cases hy : y ∈ base
      · simp only [if_pos hy, List.mem_cons]
        constructor
        · rintro (hb | ht)
          · exact Or.inl hb
          · exact Or.inr (Or.inr ht)
        · rintro (hb | rfl | ht)
          · exact Or.inl hb
          · exact Or.inl hy
          · exact Or.inr ht
      · simp only [if_neg hy, List.mem_append, List.mem_singleton,
          List.mem_cons]
        tauto

theorem nodup_unionAppend (l : List String) :
    ∀ base : List String, base.Nodup → (unionAppend base l).Nodup := by
  induction l with
  | nil => intro base h; simpa [unionAppend] using h
  | cons y t ih =>
      intro base h
      show (unionAppend (if y ∈ base then base else base ++ [y]) t).Nodup
      by_cases hy : y ∈ base
      · simpa [if_pos hy] using ih base h
      · rw [if_neg hy]
        refine ih (base ++ [y]) ?_
        simp [List.nodup_append, h, hy]

theorem extractPhaseAux_of_no_marker (content current : String)
    (l : List (String × String))
    (h : ∀ q ∈ l, strContains content q.1 = false) :
    extractPhaseAux content l current = current := by
  induction l with
  | nil => rfl
  | cons q t ih =>
      obtain ⟨marker, phase⟩ := q
      have hq := h (marker, phase) (List.mem_cons_self _ _)
      simp only [extractPhaseAux, hq, Bool.false_eq_true, if_false]
      exact ih fun q hq2 => h q (List.mem_cons_of_mem _ hq2)

theorem extractPhaseAux_first_found (content current : String)
    (l1 l2 : List (String × String)) (p : String × String)
    (h1 : ∀ q ∈ l1, strContains content q.1 = false)
    (h2 : strContains content p.1 = true) :
    extractPhaseAux content (l1 ++ p :: l2) current = p.2 := by
  induction l1 with
  | nil => simp [extractPhaseAux, h2]
  | cons q t ih =>
      obtain ⟨marker, phase⟩ := q
      have hq := h1 (marker, phase) (List.mem_cons_self _ _)
      simp only [List.cons_append, extractPhaseAux, hq, Bool.false_eq_true,
        if_false]
      exact ih fun q hq2 => h1 q (List.mem_cons_of_mem _ hq2)

theorem load_of_cached_some (m : SessionManager) (s : SessionState)
    (h : m.cached = some s) : load m = (some s, m) := by
  simp [load, h]

theorem load_snd_of_fst_some (m : SessionManager) (s : SessionState)
    (h : (load m).1 = some s) :
    (load m).2 = { m with cached := some s } := by
  obtain ⟨af, cached, dirty, disk⟩ := m
  cases cached with
  | some s0 =>
      simp only [load] at h ⊢
      simp_all
  | none =>
      cases disk with
      | none => simp [load] at h
      | some d =>
          simp only [load] at h ⊢
          simp_all

theorem mark_dirty_cached (now : Nat) (m : SessionManager)
    (st : SessionState) (h : m.cached = some st) :
    (mark_dirty now m).cached = some st ∨
      (mark_dirty now m).cached = some { st with last_updated := now } := by
  by_cases haf : m.auto_flush
  · right
    simp [mark_dirty, haf, flush, h, writeState]
  · left
    simp [mark_dirty, haf, h]

theorem addCostState_cost_budget (state : SessionState) (a : ℚ)
    (p md : Option String) :
    (addCostState state a p md).cost_usd = state.cost_usd + a ∧
      (addCostState state a p md).budget_usd = state.budget_usd := by
  cases p <;> cases md <;> simp [addCostState]

/-- After any state-mutating call built on `_mark_dirty`, the loaded
state is the pure result up to the `last_updated` stamp. -/
theorem load_after_mark_dirty (now : Nat) (m : SessionManager)
    (st : SessionState) (h : m.cached = some st) :
    (load (mark_dirty now m)).1 = some st ∨
      (load (mark_dirty now m)).1 = some { st with last_updated := now } := by
  rcases mark_dirty_cached now m st h with hc | hc
  · left; simp [load, hc]
  · right; simp [load, hc]

theorem load_set_budget (now : Nat) (b : ℚ) (m : SessionManager)
    (st : SessionState) (h : (load m).1 = some st) :
    ∃ st2, (load (set_budget now b m)).1 = some st2 ∧
      st2.cost_usd = st.cost_usd ∧ st2.budget_usd = some b := by
  have hsnd := load_snd_of_fst_some m st h
  simp only [set_budget, h, hsnd]
  rcases load_after_mark_dirty now
      { m with cached := some { st with budget_usd := some b } }
      { st with budget_usd := some b } rfl with hc | hc <;>
    exact ⟨_, hc, rfl, rfl⟩

theorem load_add_cost (now : Nat) (a : ℚ) (p md : Option String)
    (m : SessionManager) (st : SessionState) (h : (load m).1 = some st) :
    ∃ st2, (load (add_cost now a p md m)).1 = some st2 ∧
      st2.cost_usd = st.cost_usd + a ∧ st2.budget_usd = st.budget_usd := by
  have hsnd := load_snd_of_fst_some m st h
  simp only [add_cost, h, hsnd]
  obtain ⟨hcost, hbud⟩ := addCostState_cost_budget st a p md
  rcases load_after_mark_dirty now
      { m with cached := some (addCostState st a p md) }
      (addCostState st a p md) rfl with hc | hc
  · exact ⟨_, hc, hcost, hbud⟩
  · exact ⟨_, hc, hcost, hbud⟩

theorem is_over_budget_of_load (m : SessionManager) (st : SessionState)
    (b : ℚ) (h : (load m).1 = some st) (hb : st.budget_usd = some b) :
    is_over_budget m = decide (b < st.cost_usd) := by
  simp [is_over_budget, h, hb]

theorem get_budget_remaining_of_load (m : SessionManager)
    (st : SessionState) (b : ℚ) (h : (load m).1 = some st)
    (hb : st.budget_usd = some b) :
    get_budget_remaining m = some (max 0 (b - st.cost_usd)) := by
  simp [get_budget_remaining, h, hb]

/-! ## Claim theorems -/

/-- C1: the claim (and the repository's own regression test
`test_lint_fails_with_warnings`) requires a lint-class gate whose
command exits with code 0 while producing non-empty output to come back
`failed`.  `run_gate` computes the status from the exit code alone, so
the python profile's `lint` gate with exit code 0 and the warning line
used by that very test comes back `passed`. -/
theorem run_gate_lint_exit0_nonempty_output_passes :
    (run_gate pythonProfile "lint"
        (ProcOutcome.completed 0
          "src/file.py:1: I001 Import block is unsorted" "" 5)).status
      = GateStatus.passed ∧
    (run_gate pythonProfile "lint"
        (ProcOutcome.completed 0
          "src/file.py:1: I001 Import block is unsorted" "" 5)).output ≠ "" := by
  exact ⟨rfl, by decide⟩

/-- C2 (counterexample): the claim reads `first` as earliest-positioned
in the content.  In `"[PLAN] then [INIT]"` the earliest-positioned
marker is `[PLAN]` (the spec-modelled positional scan returns
`"plan"`), but `_extract_phase` iterates the marker dict and `[INIT]`
precedes `[PLAN]` in that dict, so the code returns `"init"`. -/
theorem extract_phase_earliest_position_refuted :
    extract_phase "[PLAN] then [INIT]" "evaluate" = "init" ∧
    extractPhasePositional "[PLAN] then [INIT]" "evaluate" = "plan" ∧
    extract_phase "[PLAN] then [INIT]" "evaluate" ≠
      extractPhasePositional "[PLAN] then [INIT]" "evaluate" := by
  exact ⟨rfl, rfl, by decide⟩

/-- C2 (amended): `_extract_phase` returns the phase of the first
marker in the fixed marker-dict iteration order (`[INIT]`,
`[UNDERSTAND]`, `[PLAN]`, `[EXECUTE]`, `[VERIFY]`, `[COMMIT]`,
`[DONE]`, `[EVALUATE]`) that occurs anywhere in the content, regardless
of the markers' positions in the content, and returns the current phase
unchanged when no marker occurs. -/
theorem extract_phase_first_marker_in_dict_order
    (content current_phase : String) :
    ((∀ q ∈ phaseMarkers, strContains content q.1 = false) →
        extract_phase content current_phase = current_phase) ∧
    (∀ l1 (p : String × String) l2, phaseMarkers = l1 ++ p :: l2 →
        (∀ q ∈ l1, strContains content q.1 = false) →
        strContains content p.1 = true →
        extract_phase content current_phase = p.2) := by
  constructor
  · intro h
    exact extractPhaseAux_of_no_marker content current_phase phaseMarkers h
  · intro l1 p l2 hsplit h1 h2
    show extractPhaseAux content phaseMarkers current_phase = p.2
    rw [hsplit]
    exact extractPhaseAux_first_found content current_phase l1 l2 p h1 h2

/-- C2 witness: instantiating the amended statement at concrete input.
`[EXECUTE]` is the first marker in dict order occurring in the content,
and a marker-free content leaves the current phase unchanged. -/
theorem extract_phase_first_marker_in_dict_order_witness :
    extract_phase "Starting...\n[EXECUTE] Working on tasks" "plan"
        = "execute" ∧
    extract_phase "no marker at all" "verify" = "verify" := by
  constructor
  · exact (extract_phase_first_marker_in_dict_order
      "Starting...\n[EXECUTE] Working on tasks" "plan").2
      [("[INIT]", "init"), ("[UNDERSTAND]", "understand"),
       ("[PLAN]", "plan")]
      ("[EXECUTE]", "execute")
      [("[VERIFY]", "verify"), ("[COMMIT]", "commit"),
       ("[DONE]", "done"), ("[EVALUATE]", "evaluate")]
      (by decide) (by decide) (by decide)
  · exact (extract_phase_first_marker_in_dict_order
      "no marker at all" "verify").1 (by decide)

/-- C5: `run_gate` is total and never raises.  A gate absent from the
active profile yields `skipped` with an empty error; a timeout yields
`failed` with a diagnostic containing the configured timeout value; a
process-launch failure yields `failed` carrying the exception's
message. -/
theorem run_gate_never_raises (profile : Profile) (gate_name : String)
    (outcome : ProcOutcome) :
    (dictGet? profile.gates gate_name = none →
        (run_gate profile gate_name outcome).status = GateStatus.skipped ∧
        (run_gate profile gate_name outcome).error = "") ∧
    (∀ cfg, dictGet? profile.gates gate_name = some cfg →
        (run_gate profile gate_name ProcOutcome.timedOut).status
            = GateStatus.failed ∧
        ∃ pre post, (run_gate profile gate_name ProcOutcome.timedOut).error
            = pre ++ toString cfg.timeout ++ post) ∧
    (∀ cfg msg elapsed, dictGet? profile.gates gate_name = some cfg →
        (run_gate profile gate_name
            (ProcOutcome.launchError msg elapsed)).status
          = GateStatus.failed ∧
        (run_gate profile gate_name
            (ProcOutcome.launchError msg elapsed)).error = msg) := by
  refine ⟨fun h => ?_, fun cfg h => ?_, fun cfg msg elapsed h => ?_⟩
  · cases outcome <;> simp [run_gate, h]
  · refine ⟨by simp [run_gate, h], "Timeout after ", " seconds", ?_⟩
    simp [run_gate, h]
  · exact ⟨by simp [run_gate, h], by simp [run_gate, h]⟩

/-- C5 witness: the python profile has no gate `"docs"` (skipped, no
error) and its `lint` gate times out with the default 300-second
timeout named in the diagnostic. -/
theorem run_gate_never_raises_witness :
    (run_gate pythonProfile "docs" ProcOutcome.timedOut).status
        = GateStatus.skipped ∧
    (run_gate pythonProfile "docs" ProcOutcome.timedOut).error = "" ∧
    (run_gate pythonProfile "lint" ProcOutcome.timedOut).status
        = GateStatus.failed ∧
    (run_gate pythonProfile "lint" (ProcOutcome.launchError
        "ruff not found" 3)).error = "ruff not found" := by
  have h1 := (run_gate_never_raises pythonProfile "docs"
      ProcOutcome.timedOut).1 (by decide)
  have h2 := ((run_gate_never_raises pythonProfile "lint"
      ProcOutcome.timedOut).2.1
      { command := "ruff check .", blocking := true } (by decide)).1
  have h3 := ((run_gate_never_raises pythonProfile "lint"
      ProcOutcome.timedOut).2.2
      { command := "ruff check .", blocking := true }
      "ruff not found" 3 (by decide)).2
  exact ⟨h1.1, h1.2, h2, h3⟩

/-- C9: `all_blocking_passed` is true exactly when every gate of the
profile marked blocking has a recorded result whose status is `passed`
(vacuously true with no blocking gates; a blocking gate that was never
run falsifies it). -/
theorem all_blocking_passed_iff (gates : List (String × GateConfig))
    (results : List (String × GateResult)) :
    all_blocking_passed gates results = true ↔
      ∀ p ∈ gates, p.2.blocking = true →
        ∃ r, dictGet? results p.1 = some r ∧
          r.status = GateStatus.passed := by
  induction gates with
  | nil => simp [all_blocking_passed]
  | cons g rest ih =>
      obtain ⟨gate_name, gate_config⟩ := g
      rw [show all_blocking_passed ((gate_name, gate_config) :: rest) results
            = (if gate_config.blocking = true then
                (match dictGet? results gate_name with
                 | none => false
                 | some r => if r.status = GateStatus.passed then
                     all_blocking_passed rest results else false)
               else all_blocking_passed rest results) from rfl,
          List.forall_mem_cons]
      by_cases hb : gate_config.blocking = true
      · rw [if_pos hb]
        cases hres : dictGet? results gate_name with
        | none =>
            simp only [hres]
            constructor
            · intro h; cases h
            · rintro ⟨h1, -⟩
              obtain ⟨r, hr, -⟩ := h1 hb
              cases hr
        | some r =>
            simp only [hres]
            by_cases hst : r.status = GateStatus.passed
            · rw [if_pos hst, ih]
              constructor
              · intro h
                exact ⟨fun _ => ⟨r, rfl, hst⟩, h⟩
              · rintro ⟨-, h2⟩; exact h2
            · rw [if_neg hst]
              constructor
              · intro h; cases h
              · rintro ⟨h1, -⟩
                obtain ⟨r2, hr2, hst2⟩ := h1 hb
                injection hr2 with hr2
                exact (hst (hr2 ▸ hst2)).elim
      · rw [if_neg hb, ih]
        constructor
        · intro h
          exact ⟨fun hbb => absurd hbb hb, h⟩
        · rintro ⟨-, h2⟩; exact h2

/-- C9 witness: with `lint` failed and `test` passed among the python
profile's blocking gates, `all_blocking_passed` is false. -/
theorem all_blocking_passed_iff_witness :
    all_blocking_passed pythonProfile.gates
      [("lint", { name := "lint", status := GateStatus.failed,
                  command := "ruff check ." }),
       ("test", { name := "test", status := GateStatus.passed,
                  command := "pytest" })] = false := by
  have h := all_blocking_passed_iff pythonProfile.gates
    [("lint", { name := "lint", status := GateStatus.failed,
                command := "ruff check ." }),
     ("test", { name := "test", status := GateStatus.passed,
                command := "pytest" })]
  by_contra hfalse
  rw [Bool.not_eq_false] at hfalse
  obtain ⟨r, hr, hst⟩ := h.mp hfalse
    ("lint", { command := "ruff check .", blocking := true })
    (by decide) rfl
  rw [show dictGet?
      [("lint", ({ name := "lint", status := GateStatus.failed,
                   command := "ruff check ." } : GateResult)),
       ("test", { name := "test", status := GateStatus.passed,
                  command := "pytest" })] "lint"
      = some { name := "lint", status := GateStatus.failed,
               command := "ruff check ." } from rfl] at hr
  injection hr with hr
  rw [← hr] at hst
  cases hst

/-- C3: `merge_fork` on a fork whose `parent_session_id` is the
parent's id succeeds, and the merged state has: `file_changes` equal to
the union of both lists (membership-wise, duplicate-free whenever the
parent's list was, and never dropping a parent entry), `commits` equal
to the union of both commit lists, `iteration = max` of the two, the
fork's gate entries overwriting the parent's for the same keys, and the
parent's gate entries surviving for keys the fork does not have.
(`keysNodup f.gates` is the Python dict invariant on the fork's gate
map.) -/
theorem merge_fork_union_semantics (now : Nat) (m fm : SessionManager)
    (s f : SessionState) (hs : (load m).1 = some s)
    (hf : (load fm).1 = some f)
    (hp : f.parent_session_id = some s.session_id)
    (hkeys : keysNodup f.gates) :
    (merge_fork now m fm).2 = Except.ok () ∧
    (∀ x, x ∈ (merge_states s f).file_changes ↔
        (x ∈ s.file_changes ∨ x ∈ f.file_changes)) ∧
    (s.file_changes.Nodup → (merge_states s f).file_changes.Nodup) ∧
    (∀ c, c ∈ (merge_states s f).commits ↔
        (c ∈ s.commits ∨ c ∈ f.commits)) ∧
    (merge_states s f).iteration = max s.iteration f.iteration ∧
    (∀ k v, dictGet? f.gates k = some v →
        dictGet? (merge_states s f).gates k = some v) ∧
    (∀ k, k ∉ f.gates.map Prod.fst →
        dictGet? (merge_states s f).gates k = dictGet? s.gates k) := by
  refine ⟨?_, ?_, ?_, ?_, rfl, ?_, ?_⟩
  · simp [merge_fork, hs, hf, hp]
  · intro x
    exact mem_unionAppend f.file_changes s.file_changes x
  · intro hnd
    exact nodup_unionAppend f.file_changes s.file_changes hnd
  · intro c
    exact mem_unionAppend f.commits s.commits c
  · intro k v hv
    exact dictGet?_dictUpdate_of_some f.gates s.gates k v hkeys hv
  · intro k hk
    exact dictGet?_dictUpdate_not_mem f.gates s.gates k hk

/-- C3 witness: a parent with file-changes `{a,b}`, iteration 2 and a
lint gate entry, merged with a fork that adds `{c}`, reached iteration
5 and overwrites the lint entry: the merge yields `{a,b,c}`, iteration
5, and the fork's lint entry. -/
theorem merge_fork_union_semantics_witness :
    (merge_fork 7 (freshManager false (some parentExample))
        (freshManager false (some forkExample))).2 = Except.ok () ∧
    (merge_states parentExample forkExample).file_changes
        = ["a", "b", "c"] ∧
    (merge_states parentExample forkExample).iteration = 5 ∧
    dictGet? (merge_states parentExample forkExample).gates "lint"
        = some [("status", "passed")] := by
  refine ⟨(merge_fork_union_semantics 7
      (freshManager false (some parentExample))
      (freshManager false (some forkExample))
      parentExample forkExample
      (by decide) (by decide) (by decide) (by decide)).1,
    by decide, by decide, by decide⟩

/-- C6: `fork` with no current session errors with `ValueError("No
session to fork")`; `merge_fork` with a fork whose `parent_session_id`
is not the current session's id errors with the precondition message,
and the parent manager after the failed call still carries the
unchanged parent state, disk record and dirty flag (the precondition
check precedes every mutation). -/
theorem fork_merge_precondition_violations_raise (now : Nat)
    (fork_session_id suffix : String) (fork_name : Option String)
    (m0 m fm : SessionManager) (s f : SessionState)
    (h0 : (load m0).1 = none) (hs : (load m).1 = some s)
    (hf : (load fm).1 = some f)
    (hp : f.parent_session_id ≠ some s.session_id) :
    fork now fork_session_id fork_name suffix m0
        = Except.error "No session to fork" ∧
    (merge_fork now m fm).2
        = Except.error "Cannot merge: fork is not a child of this session" ∧
    (merge_fork now m fm).1.cached = some s ∧
    (merge_fork now m fm).1.disk = m.disk ∧
    (merge_fork now m fm).1.dirty = m.dirty := by
  have hsnd := load_snd_of_fst_some m s hs
  refine ⟨?_, ?_, ?_, ?_, ?_⟩
  · simp [fork, h0]
  · simp [merge_fork, hs, hf, hp]
  · simp [merge_fork, hs, hf, hp, hsnd]
  · simp [merge_fork, hs, hf, hp, hsnd]
  · simp [merge_fork, hs, hf, hp, hsnd]

/-- C6 witness: an empty manager cannot fork, and merging a fork whose
parent id is `"other"` into the session `"s1"` errors while leaving the
parent state, disk and dirty flag as they were. -/
theorem fork_merge_precondition_violations_raise_witness :
    fork 3 "fork-1" none "ab" (freshManager false none)
        = Except.error "No session to fork" ∧
    (merge_fork 3
        (freshManager false (some
          { session_id := "s1", started_at := 0, last_updated := 0 }))
        (freshManager false (some
          { session_id := "f1", started_at := 1, last_updated := 1,
            parent_session_id := some "other" }))).2
        = Except.error "Cannot merge: fork is not a child of this session" ∧
    (merge_fork 3
        (freshManager false (some
          { session_id := "s1", started_at := 0, last_updated := 0 }))
        (freshManager false (some
          { session_id := "f1", started_at := 1, last_updated := 1,
            parent_session_id := some "other" }))).1.cached
        = some { session_id := "s1", started_at := 0, last_updated := 0 } := by
  have h := fork_merge_precondition_violations_raise 3 "fork-1" "ab" none
    (freshManager false none)
    (freshManager false (some
      { session_id := "s1", started_at := 0, last_updated := 0 }))
    (freshManager false (some
      { session_id := "f1", started_at := 1, last_updated := 1,
        parent_session_id := some "other" }))
    { session_id := "s1", started_at := 0, last_updated := 0 }
    { session_id := "f1", started_at := 1, last_updated := 1,
      parent_session_id := some "other" }
    (by decide) (by decide) (by decide) (by decide)
  exact ⟨h.1, h.2.1, h.2.2.1⟩

/-- C7: with the budget set to 5.00 and three cost entries of 2.00 each
added (from a session whose running cost is non-negative, per the
`cost_usd ≥ 0` invariant), `is_over_budget` is true and the remaining
budget is exactly 0 (clamped); in general the remaining budget is
`max 0 (budget - cost)` and with no budget set `is_over_budget` is
false. -/
theorem budget_over_and_clamped (t1 t2 t3 t4 : Nat) (m : SessionManager)
    (st : SessionState) (hld : (load m).1 = some st)
    (h0 : 0 ≤ st.cost_usd) :
    (is_over_budget (add_cost t4 2 none none (add_cost t3 2 none none
        (add_cost t2 2 none none (set_budget t1 5 m)))) = true ∧
     get_budget_remaining (add_cost t4 2 none none (add_cost t3 2 none none
        (add_cost t2 2 none none (set_budget t1 5 m)))) = some 0) ∧
    (∀ b, st.budget_usd = some b →
        get_budget_remaining m = some (max 0 (b - st.cost_usd))) ∧
    (st.budget_usd = none → is_over_budget m = false) := by
  obtain ⟨s1, hl1, hc1, hb1⟩ := load_set_budget t1 5 m st hld
  obtain ⟨s2, hl2, hc2, hb2⟩ := load_add_cost t2 2 none none _ s1 hl1
  obtain ⟨s3, hl3, hc3, hb3⟩ := load_add_cost t3 2 none none _ s2 hl2
  obtain ⟨s4, hl4, hc4, hb4⟩ := load_add_cost t4 2 none none _ s3 hl3
  have hb4v : s4.budget_usd = some 5 := by rw [hb4, hb3, hb2, hb1]
  have hc4v : s4.cost_usd = st.cost_usd + 6 := by
    rw [hc4, hc3, hc2, hc1]; ring
  refine ⟨⟨?_, ?_⟩, ?_, ?_⟩
  · rw [is_over_budget_of_load _ s4 5 hl4 hb4v, decide_eq_true_eq, hc4v]
    linarith
  · rw [get_budget_remaining_of_load _ s4 5 hl4 hb4v, hc4v]
    have : (5 : ℚ) - (st.cost_usd + 6) ≤ 0 := by linarith
    rw [max_eq_left this]
  · intro b hb
    exact get_budget_remaining_of_load m st b hld hb
  · intro hb
    simp [is_over_budget, hld, hb]

/-- C7 witness: a freshly created session (cost 0) with budget 5.00 and
three 2.00 cost entries is over budget with remaining 0. -/
theorem budget_over_and_clamped_witness :
    is_over_budget (add_cost 5 2 none none (add_cost 4 2 none none
        (add_cost 3 2 none none (set_budget 2 5
          (create 1 (freshManager false none) "s1" "general" "t" "n" ""))))) =
      true ∧
    get_budget_remaining (add_cost 5 2 none none (add_cost 4 2 none none
        (add_cost 3 2 none none (set_budget 2 5
          (create 1 (freshManager false none) "s1" "general" "t" "n" ""))))) =
      some 0 :=
  (budget_over_and_clamped 2 3 4 5
    (create 1 (freshManager false none) "s1" "general" "t" "n" "")
    { session_id := "s1", started_at := 1, last_updated := 1,
      profile := "general", task := "t", name := some "n" }
    (by decide) (by decide)).1

/-- C10: at the equality boundary (`cost_usd = budget_usd`) the
over-budget comparison is strict, so `is_over_budget` is false while
`get_budget_remaining` is 0. -/
theorem over_budget_strict_at_boundary (m : SessionManager)
    (st : SessionState) (b : ℚ) (hld : (load m).1 = some st)
    (hb : st.budget_usd = some b) (hc : st.cost_usd = b) :
    is_over_budget m = false ∧ get_budget_remaining m = some 0 := by
  constructor
  · rw [is_over_budget_of_load m st b hld hb, hc]
    simp
  · rw [get_budget_remaining_of_load m st b hld hb, hc]
    simp

/-- One mutator call on a batched manager (`auto_flush = false`) only
rewrites the cache with the pure state change and possibly raises the
dirty flag; the disk is untouched. -/
theorem runMutation_batched (now : Nat) (m : SessionManager)
    (st : SessionState) (mu : Mutation)
    (haf : m.auto_flush = false) (hc : m.cached = some st) :
    runMutation now m mu =
      { m with cached := some (applyMutation st mu),
               dirty := m.dirty || mutationChanges st mu } := by
  obtain ⟨af, ca, di, dk⟩ := m
  dsimp only at haf hc
  subst haf
  subst hc
  cases mu with
  | updatePhase ph =>
      simp [runMutation, update_phase, load, mark_dirty, applyMutation,
        mutationChanges]
  | addCommit c =>
      simp [runMutation, add_commit, load, mark_dirty, applyMutation,
        mutationChanges]
  | addFileChange f =>
      by_cases hf : f ∈ st.file_changes
      · simp [runMutation, add_file_change, load, hf, applyMutation,
          mutationChanges]
      · simp [runMutation, add_file_change, load, hf, mark_dirty,
          applyMutation, mutationChanges]
  | updateGate g r =>
      simp [runMutation, update_gate, load, mark_dirty, applyMutation,
        mutationChanges]
  | addCost a p md =>
      simp [runMutation, add_cost, load, mark_dirty, applyMutation,
        mutationChanges]

/-- A sequence of mutator calls on a batched manager leaves the disk
unchanged and folds the pure state changes into the cache. -/
theorem runMutations_batched (now : Nat) (ms : List Mutation) :
    ∀ (m : SessionManager) (st : SessionState),
      m.auto_flush = false → m.cached = some st →
      (runMutations now m ms).cached = some (ms.foldl applyMutation st) ∧
      (runMutations now m ms).disk = m.disk ∧
      (runMutations now m ms).auto_flush = false := by
  induction ms with
  | nil =>
      intro m st haf hc
      exact ⟨hc, rfl, haf⟩
  | cons mu rest ih =>
      intro m st haf hc
      have hstep := runMutation_batched now m st mu haf hc
      have h1 : runMutations now m (mu :: rest)
          = runMutations now (runMutation now m mu) rest := rfl
      have haf1 : (runMutation now m mu).auto_flush = false := by
        rw [hstep]; exact haf
      have hc1 : (runMutation now m mu).cached
          = some (applyMutation st mu) := by rw [hstep]
      obtain ⟨a, b, c⟩ := ih (runMutation now m mu)
        (applyMutation st mu) haf1 hc1
      refine ⟨?_, ?_, c⟩
      · rw [h1, a]; rfl
      · rw [h1, b, hstep]

/-- C4: with auto-flush disabled and a cached session established (as
`create` leaves it), any sequence of mutator calls leaves the on-disk
record unchanged while the cache accumulates all the pure state
changes; `flush` clears the dirty flag, writes exactly when the flag
was set (after which the disk carries all the preceding mutations,
re-stamped), and does not touch the disk when the flag was clear. -/
theorem session_dirty_batching (now tf : Nat) (m : SessionManager)
    (st : SessionState) (ms : List Mutation)
    (haf : m.auto_flush = false) (hc : m.cached = some st) :
    (runMutations now m ms).disk = m.disk ∧
    (runMutations now m ms).cached = some (ms.foldl applyMutation st) ∧
    (flush tf (runMutations now m ms)).dirty = false ∧
    ((runMutations now m ms).dirty = true →
        (flush tf (runMutations now m ms)).disk
          = some { ms.foldl applyMutation st with last_updated := tf }) ∧
    ((runMutations now m ms).dirty = false →
        (flush tf (runMutations now m ms)).disk
          = (runMutations now m ms).disk) := by
  obtain ⟨a, b, c⟩ := runMutations_batched now ms m st haf hc
  refine ⟨b, a, ?_, ?_, ?_⟩
  · by_cases hd : (runMutations now m ms).dirty
    · simp [flush, hd, a, writeState]
    · simp [flush, hd]
  · intro hd
    simp [flush, hd, a, writeState]
  · intro hd
    simp [flush, hd]

/-- C4 witness: after `create`, three batched mutator calls (phase
update, commit, file change) leave the disk holding the created record,
and the flush at time 9 writes all three mutations. -/
theorem session_dirty_batching_witness :
    (runMutations 2 (create 1 (freshManager false none) "s1" "general"
        "t" "n" "")
      [Mutation.updatePhase "plan", Mutation.addCommit "abc",
       Mutation.addFileChange "f.py"]).disk
      = (create 1 (freshManager false none) "s1" "general" "t" "n" "").disk ∧
    (flush 9 (runMutations 2 (create 1 (freshManager false none) "s1"
        "general" "t" "n" "")
      [Mutation.updatePhase "plan", Mutation.addCommit "abc",
       Mutation.addFileChange "f.py"])).dirty = false ∧
    ((runMutations 2 (create 1 (freshManager false none) "s1" "general"
        "t" "n" "")
      [Mutation.updatePhase "plan", Mutation.addCommit "abc",
       Mutation.addFileChange "f.py"]).dirty = true →
      (flush 9 (runMutations 2 (create 1 (freshManager false none) "s1"
          "general" "t" "n" "")
        [Mutation.updatePhase "plan", Mutation.addCommit "abc",
         Mutation.addFileChange "f.py"])).disk
        = some { ([Mutation.updatePhase "plan", Mutation.addCommit "abc",
                   Mutation.addFileChange "f.py"].foldl applyMutation
                    { session_id := "s1", started_at := 1,
                      last_updated := 1, profile := "general",
                      task := "t", name := some "n" })
                 with last_updated := 9 }) := by
  have h := session_dirty_batching 2 9
    (create 1 (freshManager false none) "s1" "general" "t" "n" "")
    { session_id := "s1", started_at := 1, last_updated := 1,
      profile := "general", task := "t", name := some "n" }
    [Mutation.updatePhase "plan", Mutation.addCommit "abc",
     Mutation.addFileChange "f.py"]
    (by decide) (by decide)
  exact ⟨h.1, h.2.2.1, h.2.2.2.1⟩

/-- C8: loading after saving returns the saved state with every field
unchanged except `last_updated`, which is re-stamped monotonically
(provided the clock has not gone backwards); this holds both for the
warm read from the same manager and for a cold read of the record that
`flush` put on disk. -/
theorem save_load_roundtrip (m : SessionManager) (s : SessionState)
    (t1 t2 : Nat) (h1 : s.last_updated ≤ t1) (h2 : t1 ≤ t2) :
    (∃ tw, s.last_updated ≤ tw ∧
        (load (save t1 m s)).1 = some { s with last_updated := tw }) ∧
    (∃ td, s.last_updated ≤ td ∧
        (load (freshManager false (flush t2 (save t1 m s)).disk)).1
          = some { s with last_updated := td }) := by
  by_cases haf : m.auto_flush
  · refine ⟨⟨t1, h1, ?_⟩, ⟨t1, h1, ?_⟩⟩
    · simp [save, mark_dirty, haf, flush, writeState, load]
    · simp [save, mark_dirty, haf, flush, writeState, load, freshManager]
  · refine ⟨⟨s.last_updated, le_refl _, ?_⟩, ⟨t2, le_trans h1 h2, ?_⟩⟩
    · simp [save, mark_dirty, haf, load]
    · simp [save, mark_dirty, haf, flush, writeState, load, freshManager]

/-- C8 witness: a concrete state saved at time 5 and flushed at time 7
round-trips with only `last_updated` re-stamped, non-decreasingly. -/
theorem save_load_roundtrip_witness :
    (∃ tw, (parentExample).last_updated ≤ tw ∧
        (load (save 5 (freshManager false none) parentExample)).1
          = some { parentExample with last_updated := tw }) ∧
    (∃ td, (parentExample).last_updated ≤ td ∧
        (load (freshManager false
            (flush 7 (save 5 (freshManager false none) parentExample)).disk)).1
          = some { parentExample with last_updated := td }) :=
  save_load_roundtrip (freshManager false none) parentExample 5 7
    (by decide) (by decide)

/-- C10 witness: cost exactly equal to the budget (5 of 5). -/
theorem over_budget_strict_at_boundary_witness :
    is_over_budget (freshManager false (some
        { session_id := "s1", started_at := 0, last_updated := 0,
          cost_usd := 5, budget_usd := some 5 })) = false ∧
    get_budget_remaining (freshManager false (some
        { session_id := "s1", started_at := 0, last_updated := 0,
          cost_usd := 5, budget_usd := some 5 })) = some 0 :=
  over_budget_strict_at_boundary _
    { session_id := "s1", started_at := 0, last_updated := 0,
      cost_usd := 5, budget_usd := some 5 } 5
    (by decide) (by decide) (by decide)

end Sentient
